import Mathlib

/-!
Verification development for the `unacalc` unit-aware calculator
(`unacalc/main.py`).

The development shallowly embeds the calculator's core — the pyparsing
grammar (`number`, `unit`, `constant`, `date_pattern`, `datetime_pattern`,
`operand`, `expr` built with `infixNotation`), the `ExpressionElement`
leaves, the `Expression` evaluator with its mixed quantity/date rules, and
the `auto_calculate` entry point with its `" in "` conversion suffix —
as executable Lean definitions, and proves the frozen claims about them.

Modelling conventions:
* Python `int` magnitudes are embedded as `Int`, Python `float`
  magnitudes as exact rationals (`Rat`); float rounding is not modelled.
  numpy's refusal of integer bases with negative integer exponents
  (`np.power(2, -1)` raises ValueError) is modelled, since it is an
  int/float distinction visible in results.
* The pint unit registry is embedded as a finite table (`BaseUnit`)
  holding the units and constants the claims exercise, each with its
  dimension vector and its conversion factor to coherent SI base units.
* `datetime` values are embedded as rational seconds relative to a fixed
  epoch, with an `aware` flag for values that carried a UTC offset;
  `timedelta` values as rational seconds.
* Exceptions (pyparsing `ParseException`, parse-action errors, pint
  `DimensionalityError`, `AssertionError`, `TypeError`, ...) become
  `Option`/`Except Err` values; `auto_calculate` catches every exception
  and shows a single error indicator, so distinct exception kinds are
  distinct `Err` constructors here only where a claim names them.
* Real-valued powers that leave the rational fragment (non-integral
  exponents, `0.0 ** negative`) are mapped to the `Err.modelBoundary`
  marker; no claim exercises them.
-/

namespace Unacalc

/-- Dimension vector over the seven SI base dimensions, as pint tracks
for every quantity (exponents of length, mass, time, current,
temperature, amount of substance, luminous intensity). -/
structure Dim where
  length : Int
  mass : Int
  time : Int
  current : Int
  temperature : Int
  amount : Int
  luminosity : Int
deriving DecidableEq

/-- The zero (dimensionless) dimension vector. -/
def Dim.zero : Dim := ⟨0, 0, 0, 0, 0, 0, 0⟩

/-- Pointwise sum of dimension vectors (dimension of a product). -/
def Dim.add (a b : Dim) : Dim :=
  ⟨a.length + b.length, a.mass + b.mass, a.time + b.time, a.current + b.current,
   a.temperature + b.temperature, a.amount + b.amount, a.luminosity + b.luminosity⟩

/-- Integer multiple of a dimension vector (dimension of a power). -/
def Dim.smul (k : Int) (a : Dim) : Dim :=
  ⟨k * a.length, k * a.mass, k * a.time, k * a.current,
   k * a.temperature, k * a.amount, k * a.luminosity⟩

/-- Pure time dimension (the dimension `left.to('seconds')` requires). -/
def timeDim : Dim := ⟨0, 0, 1, 0, 0, 0, 0⟩

/-- The units and named physical constants of the pint registry that the
claims exercise.  pint treats named constants such as `speed_of_light`
as units too (`ureg.Quantity("speed_of_light")` is `1 speed_of_light`),
so the speed of light appears here as a unit of dimension length/time
with conversion factor 299792458. -/
inductive BaseUnit
  | g | kg | m | km | s | minU | hourU | day | week | J | W | Wh | speedOfLight
deriving DecidableEq

/-- Dimension vector of each registry unit. -/
def BaseUnit.dim : BaseUnit → Dim
  | .g => ⟨0, 1, 0, 0, 0, 0, 0⟩
  | .kg => ⟨0, 1, 0, 0, 0, 0, 0⟩
  | .m => ⟨1, 0, 0, 0, 0, 0, 0⟩
  | .km => ⟨1, 0, 0, 0, 0, 0, 0⟩
  | .s => timeDim
  | .minU => timeDim
  | .hourU => timeDim
  | .day => timeDim
  | .week => timeDim
  | .J => ⟨2, 1, -2, 0, 0, 0, 0⟩
  | .W => ⟨2, 1, -3, 0, 0, 0, 0⟩
  | .Wh => ⟨2, 1, -2, 0, 0, 0, 0⟩
  | .speedOfLight => ⟨1, 0, -1, 0, 0, 0, 0⟩

/-- Conversion factor of each registry unit to coherent SI base units
(kilogram, metre, second and their products). -/
def BaseUnit.factor : BaseUnit → Rat
  | .g => 1 / 1000
  | .kg => 1
  | .m => 1
  | .km => 1000
  | .s => 1
  | .minU => 60
  | .hourU => 3600
  | .day => 86400
  | .week => 604800
  | .J => 1
  | .W => 1
  | .Wh => 3600
  | .speedOfLight => 299792458

/-- Registry symbol lookup: the names (including the plural and long
spellings pint accepts) under which the modelled units resolve.  This is
the finite sub-table of pint's registry that the claims exercise;
symbols outside it behave like pint's `UndefinedUnitError`. -/
def lookupUnit (s : String) : Option BaseUnit :=
  if s = "g" ∨ s = "gram" ∨ s = "grams" then some .g
  else if s = "kg" ∨ s = "kilogram" ∨ s = "kilograms" then some .kg
  else if s = "m" ∨ s = "meter" ∨ s = "meters" ∨ s = "metre" ∨ s = "metres" then some .m
  else if s = "km" ∨ s = "kilometer" ∨ s = "kilometers" then some .km
  else if s = "s" ∨ s = "sec" ∨ s = "secs" ∨ s = "second" ∨ s = "seconds" then some .s
  else if s = "min" ∨ s = "minute" ∨ s = "minutes" then some .minU
  else if s = "h" ∨ s = "hr" ∨ s = "hour" ∨ s = "hours" then some .hourU
  else if s = "d" ∨ s = "day" ∨ s = "days" then some .day
  else if s = "week" ∨ s = "weeks" then some .week
  else if s = "J" ∨ s = "joule" ∨ s = "joules" then some .J
  else if s = "W" ∨ s = "watt" ∨ s = "watts" then some .W
  else if s = "Wh" ∨ s = "watthour" then some .Wh
  else if s = "c" ∨ s = "speed_of_light" then some .speedOfLight
  else none

/-- Compound symbolic unit of a quantity: base units with integer
exponents, as in pint's `UnitsContainer`. -/
abbrev Units := List (BaseUnit × Int)

/-- Rational power with an integer exponent (the only powers the
embedding needs in exact arithmetic). -/
def natPow (a : Rat) : Nat → Rat
  | 0 => 1
  | n + 1 => natPow a n * a

/-- Integer-exponent power on rationals. -/
def intPow (a : Rat) : Int → Rat
  | .ofNat n => natPow a n
  | .negSucc n => (natPow a (n + 1))⁻¹

/-- Dimension vector of a compound unit. -/
def udim : Units → Dim
  | [] => Dim.zero
  | (b, e) :: rest => Dim.add (Dim.smul e b.dim) (udim rest)

/-- Conversion factor of a compound unit to SI base units. -/
def ufactor : Units → Rat
  | [] => 1
  | (b, e) :: rest => intPow b.factor e * ufactor rest

/-- Merge one base unit with exponent into a compound unit, adding
exponents and dropping units whose exponent cancels to zero, as pint's
`UnitsContainer` arithmetic does. -/
def umergeOne (u : Units) (b : BaseUnit) (e : Int) : Units :=
  match u with
  | [] => if e = 0 then [] else [(b, e)]
  | (b', e') :: rest =>
    if b' = b then
      if e' + e = 0 then rest else (b', e' + e) :: rest
    else (b', e') :: umergeOne rest b e

/-- Product of two compound units (exponents added pointwise). -/
def umul (u v : Units) : Units :=
  match v with
  | [] => u
  | (b, e) :: rest => umul (umergeOne u b e) rest

/-- Exponents of a compound unit scaled by an integer (unit of a power). -/
def upow (u : Units) (k : Int) : Units :=
  if k = 0 then [] else u.map (fun p => (p.1, p.2 * k))

/-- Inverse of a compound unit (for division). -/
def uinv (u : Units) : Units := u.map (fun p => (p.1, -p.2))

/-- Magnitude of a pint quantity as it occurs in this program: a Python
`int` (integer literals, pint constants), a Python `float` (float and
scientific literals, every converted or divided magnitude), or a
`datetime.timedelta` (only produced by `Instant - Instant`, which the
code wraps back into `ureg.Quantity(timedelta, None)`).  Floats and
timedeltas are embedded as exact rationals. -/
inductive Mag
  | int (n : Int)
  | flt (x : Rat)
  | td (secs : Rat)
deriving DecidableEq

/-- Multiplication of a magnitude by a conversion factor, which Python
performs in float arithmetic: an `int` magnitude becomes a `float`, a
`timedelta` scales to a `timedelta`. -/
def magScaleF (c : Rat) : Mag → Mag
  | .int n => .flt ((n : Rat) * c)
  | .flt x => .flt (x * c)
  | .td a => .td (a * c)

/-- True for numeric (non-timedelta) magnitudes. -/
def Mag.isNum : Mag → Bool
  | .int _ => true
  | .flt _ => true
  | .td _ => false

/-- Numeric value of a magnitude (0 for the timedelta case, which every
use guards against). -/
def Mag.val : Mag → Rat
  | .int n => (n : Rat)
  | .flt x => x
  | .td _ => 0

/-- Errors of the embedded core.  `auto_calculate` catches every Python
exception alike; distinct constructors stand for the distinct exception
kinds the spec names (pint `DimensionalityError` in `+`/`-`/temporal
conversion is `dimensionMismatch`, the same exception raised while
converting to the `" in "` target is `incompatibleConversionUnit`, the
`assert right.dimensionless` failure is `nonDimensionlessExponent`,
numpy's rejection of `np.power(int, negative int)` is `intNegPower`).
`modelBoundary` marks real-valued powers outside the rational
embedding (non-integral exponents, `0.0 ** negative`); no claim
reaches it. -/
inductive Err
  | parseErr
  | dimensionMismatch
  | nonDimensionlessExponent
  | unsupportedTemporal
  | valueError
  | typeError
  | zeroDivision
  | intNegPower
  | unknownUnit
  | incompatibleConversionUnit
  | modelBoundary
deriving DecidableEq

/-- A pint quantity: a magnitude and a symbolic compound unit.  Its
dimension vector is derived from the unit, as pint derives it. -/
structure Quantity where
  mag : Mag
  units : Units
deriving DecidableEq

/-- Dimension vector of a quantity. -/
def Quantity.dim (q : Quantity) : Dim := udim q.units

/-- Python addition of two magnitudes: `int + int` stays `int`, a float
operand makes the sum a float, `timedelta + timedelta` is a timedelta,
and a timedelta mixed with a number raises `TypeError`. -/
def mAdd : Mag → Mag → Except Err Mag
  | .int a, .int b => .ok (.int (a + b))
  | .int a, .flt y => .ok (.flt ((a : Rat) + y))
  | .flt x, .int b => .ok (.flt (x + (b : Rat)))
  | .flt x, .flt y => .ok (.flt (x + y))
  | .td a, .td b => .ok (.td (a + b))
  | _, _ => .error .typeError

/-- Python subtraction of two magnitudes (same typing rules as `mAdd`). -/
def mSub : Mag → Mag → Except Err Mag
  | .int a, .int b => .ok (.int (a - b))
  | .int a, .flt y => .ok (.flt ((a : Rat) - y))
  | .flt x, .int b => .ok (.flt (x - (b : Rat)))
  | .flt x, .flt y => .ok (.flt (x - y))
  | .td a, .td b => .ok (.td (a - b))
  | _, _ => .error .typeError

/-- Python multiplication of two magnitudes: a timedelta may be scaled
by a number, two timedeltas cannot be multiplied. -/
def mMul : Mag → Mag → Except Err Mag
  | .int a, .int b => .ok (.int (a * b))
  | .int a, .flt y => .ok (.flt ((a : Rat) * y))
  | .flt x, .int b => .ok (.flt (x * (b : Rat)))
  | .flt x, .flt y => .ok (.flt (x * y))
  | .td a, .int b => .ok (.td (a * (b : Rat)))
  | .td a, .flt y => .ok (.td (a * y))
  | .int a, .td b => .ok (.td ((a : Rat) * b))
  | .flt x, .td b => .ok (.td (x * b))
  | .td _, .td _ => .error .typeError

/-- Python true division of two magnitudes: `int / int` is a float,
division by zero raises, `timedelta / timedelta` is a float ratio, a
number cannot be divided by a timedelta. -/
def mDiv : Mag → Mag → Except Err Mag
  | .int a, .int b => if b = 0 then .error .zeroDivision else .ok (.flt ((a : Rat) / (b : Rat)))
  | .int a, .flt y => if y = 0 then .error .zeroDivision else .ok (.flt ((a : Rat) / y))
  | .flt x, .int b => if b = 0 then .error .zeroDivision else .ok (.flt (x / (b : Rat)))
  | .flt x, .flt y => if y = 0 then .error .zeroDivision else .ok (.flt (x / y))
  | .td a, .int b => if b = 0 then .error .zeroDivision else .ok (.td (a / (b : Rat)))
  | .td a, .flt y => if y = 0 then .error .zeroDivision else .ok (.td (a / y))
  | .td a, .td b => if b = 0 then .error .zeroDivision else .ok (.flt (a / b))
  | _, _ => .error .typeError

/-- Integer power with a natural exponent. -/
def intIPow (a : Int) : Nat → Int
  | 0 => 1
  | n + 1 => intIPow a n * a

/-- pint multiplication (`left * right`): magnitudes multiply, unit
exponents add; always dimensionally legal. -/
def qmul (x y : Quantity) : Except Err Quantity := do
  let m ← mMul x.mag y.mag
  return ⟨m, umul x.units y.units⟩

/-- pint division (`left / right`): magnitudes divide, unit exponents
subtract. -/
def qdiv (x y : Quantity) : Except Err Quantity := do
  let m ← mDiv x.mag y.mag
  return ⟨m, umul x.units (uinv y.units)⟩

/-- pint addition (`left + right`): with syntactically equal units the
magnitudes add directly; with equal dimensions the right magnitude is
first converted to the left unit (in float arithmetic); otherwise pint
raises `DimensionalityError`.  The result always carries the left
operand's unit. -/
def qadd (x y : Quantity) : Except Err Quantity :=
  if x.units = y.units then do
    let m ← mAdd x.mag y.mag
    return ⟨m, x.units⟩
  else if x.dim = y.dim then do
    let m ← mAdd x.mag (magScaleF (ufactor y.units / ufactor x.units) y.mag)
    return ⟨m, x.units⟩
  else .error .dimensionMismatch

/-- pint subtraction (`left - right`), same unit rules as `qadd`. -/
def qsub (x y : Quantity) : Except Err Quantity :=
  if x.units = y.units then do
    let m ← mSub x.mag y.mag
    return ⟨m, x.units⟩
  else if x.dim = y.dim then do
    let m ← mSub x.mag (magScaleF (ufactor y.units / ufactor x.units) y.mag)
    return ⟨m, x.units⟩
  else .error .dimensionMismatch

/-- Float power for `np.power` once a float is involved: exact within
the rational embedding for integral exponents; non-integral exponents
and `0.0` to a negative power (numpy yields `inf`) fall outside the
embedding and are marked `modelBoundary`. -/
def powFlt (b : Rat) (e : Rat) (us : Units) : Except Err Quantity :=
  if e.den = 1 then
    if b = 0 ∧ e.num < 0 then .error .modelBoundary
    else .ok ⟨.flt (intPow b e.num), upow us e.num⟩
  else .error .modelBoundary

/-- The `^`/`**` case of the evaluator: `assert right.dimensionless`
(else `NonDimensionlessExponent`), then `np.power(left, right)`.  The
exponent quantity is reduced to its dimensionless magnitude (scaled
unit spellings such as `m/km` contribute their factor); numpy refuses
integer bases with negative integer exponents. -/
def qpow (x y : Quantity) : Except Err Quantity :=
  if y.dim ≠ Dim.zero then .error .nonDimensionlessExponent
  else
    let em : Mag := if y.units = [] then y.mag else magScaleF (ufactor y.units) y.mag
    match x.mag, em with
    | .td _, _ => .error .typeError
    | _, .td _ => .error .typeError
    | .int a, .int n =>
      if n < 0 then .error .intNegPower
      else .ok ⟨.int (intIPow a n.toNat), upow x.units n⟩
    | .int a, .flt e => powFlt (a : Rat) e x.units
    | .flt b, .int n =>
      if b = 0 ∧ n < 0 then .error .modelBoundary
      else .ok ⟨.flt (intPow b n), upow x.units n⟩
    | .flt b, .flt e => powFlt b e x.units

/-- A Python `datetime`: rational seconds relative to the epoch (in UTC
for offset-carrying values) plus an awareness flag.  `aware` is true
exactly for values parsed with an explicit UTC offset or `Z`. -/
structure Instant where
  utc : Rat
  aware : Bool
deriving DecidableEq

/-- A value flowing through the evaluator: `ExpressionElement.obj` is
either a pint quantity or a `datetime`. -/
inductive V
  | qty (q : Quantity)
  | inst (i : Instant)
deriving DecidableEq

/-- True for `datetime` values (the `isinstance(..., datetime)` test). -/
def V.isInst : V → Bool
  | .qty _ => false
  | .inst _ => true

/-- An operand of the temporal branch after conversion: a `datetime` or
a `timedelta` (seconds). -/
inductive TV
  | dt (i : Instant)
  | td (secs : Rat)

/-- Conversion applied to each side of a `+`/`-` node once one side is a
`datetime`: a pint quantity becomes
`timedelta(seconds=q.to('seconds').magnitude)`, raising
`DimensionalityError` when its dimension is not pure time. -/
def toTemporal : V → Except Err TV
  | .inst i => .ok (.dt i)
  | .qty q =>
    if q.dim = timeDim then
      match q.mag with
      | .int n => .ok (.td ((n : Rat) * ufactor q.units))
      | .flt x => .ok (.td (x * ufactor q.units))
      | .td _ => .error .typeError
    else .error .dimensionMismatch

/-- The temporal `+`/`-` dispatch.  `datetime ± timedelta` is a
`datetime`; `datetime - datetime` is a `timedelta`, which the code wraps
in `ExpressionElement(...)` and hence in `ureg.Quantity(timedelta,
None)` — a dimensionless quantity with a timedelta magnitude;
`datetime + datetime` and `timedelta - datetime` raise `TypeError`
(as does subtraction of datetimes of mixed awareness); any operator
other than `+`/`-` raises `ValueError`. -/
def tcombine (op : String) (l r : TV) : Except Err V :=
  if op = "+" then
    match l, r with
    | .dt a, .td s => .ok (.inst ⟨a.utc + s, a.aware⟩)
    | .td s, .dt a => .ok (.inst ⟨a.utc + s, a.aware⟩)
    | .dt _, .dt _ => .error .typeError
    | .td s, .td t => .ok (.qty ⟨.td (s + t), []⟩)
  else if op = "-" then
    match l, r with
    | .dt a, .td s => .ok (.inst ⟨a.utc - s, a.aware⟩)
    | .dt a, .dt b =>
      if a.aware = b.aware then .ok (.qty ⟨.td (a.utc - b.utc), []⟩)
      else .error .typeError
    | .td _, .dt _ => .error .typeError
    | .td s, .td t => .ok (.qty ⟨.td (s - t), []⟩)
  else .error .unsupportedTemporal

/-- One binary node of `Expression._evaluate_expression` after both
operands have been evaluated: the temporal branch fires when either side
is a `datetime` (converting both sides first, whatever the operator);
otherwise both sides are pint quantities and the operator dispatches to
pint arithmetic.  The final catch-all is unreachable (a non-temporal
pair is always two quantities) and mirrors the dispatch failure. -/
def evalBinOp (l : V) (op : String) (r : V) : Except Err V :=
  if l.isInst ∨ r.isInst then do
    let lt ← toTemporal l
    let rt ← toTemporal r
    tcombine op lt rt
  else
    match l, r with
    | .qty x, .qty y =>
      if op = "*" then (qmul x y).map .qty
      else if op = "+" then (qadd x y).map .qty
      else if op = "/" then (qdiv x y).map .qty
      else if op = "-" then (qsub x y).map .qty
      else if op = "^" ∨ op = "**" then (qpow x y).map .qty
      else .error .valueError
    | _, _ => .error .valueError

/-- Gregorian leap-year test (as Python's `datetime` calendar). -/
def isLeap (y : Int) : Bool := y % 4 = 0 && (y % 100 != 0 || y % 400 = 0)

/-- Days in a month of the proleptic Gregorian calendar. -/
def daysInMonth (y m : Int) : Int :=
  if m = 1 ∨ m = 3 ∨ m = 5 ∨ m = 7 ∨ m = 8 ∨ m = 10 ∨ m = 12 then 31
  else if m = 4 ∨ m = 6 ∨ m = 9 ∨ m = 11 then 30
  else if isLeap y then 29 else 28

/-- Range checks `datetime.fromisoformat` / `strptime` perform on a
calendar date. -/
def validDate (y mo d : Int) : Bool :=
  1 ≤ y && y ≤ 9999 && 1 ≤ mo && mo ≤ 12 && 1 ≤ d && d ≤ daysInMonth y mo

/-- Range checks on a time of day. -/
def validTime (h mi se : Int) : Bool :=
  0 ≤ h && h ≤ 23 && 0 ≤ mi && mi ≤ 59 && 0 ≤ se && se ≤ 59

/-- Days since 1970-01-01 of a Gregorian calendar date (standard
days-from-civil computation with floor divisions). -/
def daysFromCivil (y m d : Int) : Int :=
  let y' := if m ≤ 2 then y - 1 else y
  let era := Int.fdiv y' 400
  let yoe := y' - era * 400
  let mp := Int.emod (m + 9) 12
  let doy := Int.fdiv (153 * mp + 2) 5 + d - 1
  let doe := yoe * 365 + Int.fdiv yoe 4 - Int.fdiv yoe 100 + doy
  era * 146097 + doe - 719468

/-- Seconds since the epoch of a (local) calendar date and time. -/
def civilSecs (y mo d h mi se : Int) (frac : Rat) : Rat :=
  ((daysFromCivil y mo d : Int) : Rat) * 86400 + (h : Rat) * 3600 + (mi : Rat) * 60
    + (se : Rat) + frac

/-- Floor of a rational (used for the midnight of `today`). -/
def ratFloor (q : Rat) : Int := Int.fdiv q.num (q.den : Int)

/-- Midnight (start of day) of the instant `t`, as
`datetime.combine(datetime.now(), datetime.min.time())` produces. -/
def floorDay (t : Rat) : Rat := (ratFloor (t / 86400) : Rat) * 86400

/-- Resolution of a non-temporal identifier through the registry:
`ureg.Quantity(name)` yields `1` of the unit (or named constant) called
`name`, or raises `UndefinedUnitError`. -/
def constantLookup (name : String) : Option V :=
  (lookupUnit name).map (fun b => V.qty ⟨.int 1, [(b, 1)]⟩)

/-- `ExpressionElement.from_constant`: `now` and `today` become wall
clock datetimes (read when this parse action runs), `c` is special-cased
to the registry's `speed_of_light`, and every other identifier is looked
up in the registry under its own name.  `none` is the raised
`UndefinedUnitError`. -/
def from_constant (clock : Rat) (name : String) : Option V :=
  if name = "now" then some (.inst ⟨clock, false⟩)
  else if name = "today" then some (.inst ⟨floorDay clock, false⟩)
  else if name = "c" then constantLookup "speed_of_light"
  else constantLookup name

/-- Whitespace characters pyparsing skips by default. -/
def isWsChar (c : Char) : Bool := c = ' ' || c = '\t' || c = '\n'

/-- Skip leading whitespace (performed before every token match). -/
def skipWs : List Char → List Char
  | [] => []
  | c :: rest => if isWsChar c then skipWs rest else c :: rest

/-- Numeric value of a digit run. -/
def natOfDigitsAux (acc : Nat) : List Char → Nat
  | [] => acc
  | c :: rest => natOfDigitsAux (acc * 10 + (c.toNat - 48)) rest

/-- Numeric value of a digit run. -/
def natOfDigits (ds : List Char) : Nat := natOfDigitsAux 0 ds

/-- One or more digits (`Word(nums)`), maximal munch. -/
def digits1 (s : List Char) : Option (List Char × List Char) :=
  match s.span Char.isDigit with
  | ([], _) => none
  | (ds, rest) => some (ds, rest)

/-- The optional leading sign accepted inside every number token
(`Optional(oneOf('+ -'))` under `Combine`, so adjacent to the digits). -/
def parseSignTok : List Char → (Bool × List Char)
  | '-' :: rest => (true, rest)
  | '+' :: rest => (false, rest)
  | s => (false, s)

/-- Value of a sign, integer digits and fraction digits. -/
def mkDecimal (neg : Bool) (ds fs : List Char) : Rat :=
  let mant : Rat := (natOfDigits ds : Rat) + (natOfDigits fs : Rat) / natPow 10 fs.length
  if neg then -mant else mant

/-- The `scientific_number` token: sign? digits ['.' digits?] (e|E)
sign? digits, all adjacent. -/
def parseScientific (s : List Char) : Option (Rat × List Char) := do
  let (neg, s1) := parseSignTok s
  let (ds, s2) ← digits1 s1
  let s3 := match s2 with
    | '.' :: r => r
    | _ => s2
  let (fs, s4) := s3.span Char.isDigit
  match s4 with
  | c :: s5 =>
    if c = 'e' ∨ c = 'E' then do
      let (eneg, s6) := parseSignTok s5
      let (es, s7) ← digits1 s6
      let ex : Int := if eneg then -(natOfDigits es : Int) else (natOfDigits es : Int)
      some (mkDecimal neg ds fs * intPow 10 ex, s7)
    else none
  | [] => none

/-- The `float_number` token: sign? (digits? '.' digits | digits '.'),
alternatives tried in that order. -/
def parseFloatTok (s : List Char) : Option (Rat × List Char) :=
  let (neg, s1) := parseSignTok s
  let (ds, s2) := s1.span Char.isDigit
  match s2 with
  | '.' :: s3 =>
    match s3.span Char.isDigit with
    | ([], _) => if ds.isEmpty then none else some (mkDecimal neg ds [], s3)
    | (fs, s4) => some (mkDecimal neg ds fs, s4)
  | _ => none

/-- The `integer` token: sign? digits. -/
def parseIntTok (s : List Char) : Option (Int × List Char) := do
  let (neg, s1) := parseSignTok s
  let (ds, s2) ← digits1 s1
  let n : Int := (natOfDigits ds : Int)
  some ((if neg then -n else n), s2)

/-- The `number` production: `scientific_number | float_number |
integer`, with the Python parse actions `float` and `int` reflected in
the magnitude kind. -/
def parseNumber (s : List Char) : Option (Mag × List Char) :=
  match parseScientific s with
  | some (v, r) => some (.flt v, r)
  | none =>
    match parseFloatTok s with
    | some (v, r) => some (.flt v, r)
    | none =>
      match parseIntTok s with
      | some (n, r) => some (.int n, r)
      | none => none

/-- The `unit` production: `Word(alphas)`, a maximal run of ASCII
letters. -/
def parseUnitTok (s : List Char) : Option (String × List Char) :=
  match s.span Char.isAlpha with
  | ([], _) => none
  | (us, rest) => some (String.mk us, rest)

/-- `Word(nums, exact=n)`: exactly `n` digit characters. -/
def takeDigitsExact (n : Nat) (s : List Char) : Option (Nat × List Char) :=
  let pre := s.take n
  if pre.length = n ∧ pre.all Char.isDigit then some (natOfDigits pre, s.drop n) else none

/-- Expect one literal character. -/
def expectChar (c : Char) : List Char → Option (List Char)
  | c' :: rest => if c' = c then some rest else none
  | [] => none

/-- The optional UTC offset of the `datetime_pattern` token:
`(sign HH ':' MM) | 'Z'`, adjacent.  Yields the offset in seconds when
present (`none` in the offset position means a naive datetime), or
`none` overall consuming nothing. -/
def parseOffsetTok (s : List Char) : Option Int × List Char :=
  let signed : Option (Int × List Char) :=
    match s with
    | c :: r =>
      if c = '+' ∨ c = '-' then
        match takeDigitsExact 2 r with
        | some (oh, r1) =>
          match expectChar ':' r1 with
          | some r2 =>
            match takeDigitsExact 2 r2 with
            | some (om, r3) =>
              let secs : Int := (oh : Int) * 3600 + (om : Int) * 60
              some ((if c = '-' then -secs else secs), r3)
            | none => none
          | none => none
        | none => none
      else none
    | [] => none
  match signed with
  | some (o, r) => (some o, r)
  | none =>
    match s with
    | 'Z' :: r => (some 0, r)
    | _ => (none, s)

/-- Build the `datetime` for a fully parsed `datetime_pattern` token,
mirroring the `ExpressionElement` parse action: the `__init__` regex
demands that a fraction only follows explicit seconds, then
`datetime.fromisoformat` validates the ranges; an offset yields an
aware datetime stored here in UTC.  `none` is the raised exception. -/
def mkDatetime (y mo d h mi : Int) (secPart : Option Int) (frac : Rat)
    (fracPresent : Bool) (off : Option Int) : Option V :=
  if fracPresent ∧ secPart.isNone then none
  else
    let se := secPart.getD 0
    let offOk : Bool :=
      match off with
      | none => true
      | some o => -86340 ≤ o && o ≤ 86340
    if validDate y mo d && validTime h mi se && offOk then
      some (.inst ⟨civilSecs y mo d h mi se frac - ((off.getD 0 : Int) : Rat), off.isSome⟩)
    else none

/-- Result of a pyparsing match attempt: `fail` backtracks to the next
alternative, `abort` models an exception raised by a parse action
(which propagates out of `parseString` without backtracking), `done`
carries the parsed node and the remaining input. -/
inductive PRes (α : Type)
  | fail
  | abort
  | done (a : α) (rest : List Char)

/-- Parse tree node: pyparsing leaves (already turned into values by the
parse actions), operator tokens, and `Group` lists. -/
inductive PNode
  | elem (v : V)
  | opTok (op : String)
  | grp (xs : List PNode)

/-- The `datetime_pattern` token with its parse action. -/
def parseDatetimeTok (s : List Char) : Option (Option V × List Char) := do
  let (y, s1) ← takeDigitsExact 4 s
  let s2 ← expectChar '-' s1
  let (mo, s3) ← takeDigitsExact 2 s2
  let s4 ← expectChar '-' s3
  let (d, s5) ← takeDigitsExact 2 s4
  let s6 ← expectChar 'T' s5
  let (h, s7) ← takeDigitsExact 2 s6
  let s8 ← expectChar ':' s7
  let (mi, s9) ← takeDigitsExact 2 s8
  let (secPart, s10) : Option Int × List Char :=
    match expectChar ':' s9 with
    | some r =>
      match takeDigitsExact 2 r with
      | some (v, r') => (some (v : Int), r')
      | none => (none, s9)
    | none => (none, s9)
  let (fracPresent, frac, s11) : Bool × Rat × List Char :=
    match s10 with
    | '.' :: r =>
      match r.span Char.isDigit with
      | ([], _) => (false, 0, s10)
      | (fs, r') => (true, (natOfDigits fs : Rat) / natPow 10 fs.length, r')
    | _ => (false, 0, s10)
  let (off, s12) := parseOffsetTok s11
  some (mkDatetime y mo d h mi secPart frac fracPresent off, s12)

/-- The `date_pattern` token with its parse action (`strptime`
validation, producing a naive midnight datetime). -/
def parseDateTok (s : List Char) : Option (Option V × List Char) := do
  let (y, s1) ← takeDigitsExact 4 s
  let s2 ← expectChar '-' s1
  let (mo, s3) ← takeDigitsExact 2 s2
  let s4 ← expectChar '-' s3
  let (d, s5) ← takeDigitsExact 2 s4
  if validDate y mo d then
    some (some (.inst ⟨civilSecs y mo d 0 0 0 0, false⟩), s5)
  else
    some (none, s5)

/-- The `value_with_unit` production: `Group(number + unit)` whose parse
action attaches the unit to the literal (`set_unit`), constructing
`ureg.Quantity(value, unit)`; an unknown unit symbol raises. -/
def parseValueWithUnit (s : List Char) : Option (Option V × List Char) := do
  let (mg, s1) ← parseNumber s
  let (u, s2) ← parseUnitTok (skipWs s1)
  some ((lookupUnit u).map (fun b => V.qty ⟨mg, [(b, 1)]⟩), s2)

/-- The `constant` production: `Word(alphas + "_")` resolved through
`ExpressionElement.from_constant`; an unknown name raises. -/
def parseConstantTok (clock : Rat) (s : List Char) : Option (Option V × List Char) :=
  match s.span (fun ch => ch.isAlpha || ch = '_') with
  | ([], _) => none
  | (cs, rest) => some (from_constant clock (String.mk cs), rest)

/-- The `operand` production: `datetime_pattern | date_pattern |
value_with_unit | value_without_unit | constant`, a pyparsing
`MatchFirst` (first alternative that matches wins; an exception in a
parse action aborts the whole parse). -/
def parseOperand (clock : Rat) (s0 : List Char) : PRes PNode :=
  let s := skipWs s0
  match parseDatetimeTok s with
  | some (some v, r) => .done (.elem v) r
  | some (none, _) => .abort
  | none =>
    match parseDateTok s with
    | some (some v, r) => .done (.elem v) r
    | some (none, _) => .abort
    | none =>
      match parseValueWithUnit s with
      | some (some v, r) => .done (.elem v) r
      | some (none, _) => .abort
      | none =>
        match parseNumber s with
        | some (mg, r) => .done (.elem (.qty ⟨mg, []⟩)) r
        | none =>
          match parseConstantTok clock s with
          | some (some v, r) => .done (.elem v) r
          | some (none, _) => .abort
          | none => .fail

/-- Match one operator spelling from a list tried longest-first
(pyparsing `oneOf`). -/
def matchOpTok : List String → List Char → Option (String × List Char)
  | [], _ => none
  | l :: ls, s =>
    if s.take l.data.length = l.data then some (l, s.drop l.data.length)
    else matchOpTok ls s

/-!
The `expr = infixNotation(operand, [(exp, 2, RIGHT), (mult, 2, LEFT),
(plus, 2, LEFT)])` grammar, written out the way pyparsing builds it:
each level is `Group(lower + OneOrMore(op + operand))` falling back to
`lower`; the right-associative `^`/`**` level recurses into itself
after the operator (so chains nest to the right, length-3 groups), the
left-associative levels repeat the lower level (so chains stay flat).
Parenthesized sub-expressions recurse into the whole grammar.  The fuel
argument only bounds recursion depth; the initial fuel in
`parse_expression` always suffices.
-/
mutual

def parseBase (clock : Rat) (fuel : Nat) (s : List Char) : PRes PNode :=
  match fuel with
  | 0 => .fail
  | fuel + 1 =>
    match parseOperand clock s with
    | .done t r => .done t r
    | .abort => .abort
    | .fail =>
      match skipWs s with
      | '(' :: s2 =>
        match parseSum clock fuel s2 with
        | .done t r =>
          match skipWs r with
          | ')' :: r2 => .done t r2
          | _ => .fail
        | .abort => .abort
        | .fail => .fail
      | _ => .fail

def parsePow (clock : Rat) (fuel : Nat) (s : List Char) : PRes PNode :=
  match fuel with
  | 0 => .fail
  | fuel + 1 =>
    match parseBase clock fuel s with
    | .done b r =>
      match powLoop clock fuel [] r with
      | .done items r2 =>
        match items with
        | [] => .done b r
        | _ => .done (.grp (b :: items)) r2
      | .abort => .abort
      | .fail => .done b r
    | .abort => .abort
    | .fail => .fail

def powLoop (clock : Rat) (fuel : Nat) (acc : List PNode) (s : List Char) :
    PRes (List PNode) :=
  match fuel with
  | 0 => .fail
  | fuel + 1 =>
    match matchOpTok ["**", "^"] (skipWs s) with
    | some (o, r) =>
      match parsePow clock fuel r with
      | .done t r2 => powLoop clock fuel (acc ++ [.opTok o, t]) r2
      | .abort => .abort
      | .fail => .done acc s
    | none => .done acc s

def parseMul (clock : Rat) (fuel : Nat) (s : List Char) : PRes PNode :=
  match fuel with
  | 0 => .fail
  | fuel + 1 =>
    match parsePow clock fuel s with
    | .done b r =>
      match mulLoop clock fuel [] r with
      | .done items r2 =>
        match items with
        | [] => .done b r
        | _ => .done (.grp (b :: items)) r2
      | .abort => .abort
      | .fail => .done b r
    | .abort => .abort
    | .fail => .fail

def mulLoop (clock : Rat) (fuel : Nat) (acc : List PNode) (s : List Char) :
    PRes (List PNode) :=
  match fuel with
  | 0 => .fail
  | fuel + 1 =>
    match matchOpTok ["*", "/"] (skipWs s) with
    | some (o, r) =>
      match parsePow clock fuel r with
      | .done t r2 => mulLoop clock fuel (acc ++ [.opTok o, t]) r2
      | .abort => .abort
      | .fail => .done acc s
    | none => .done acc s

def parseSum (clock : Rat) (fuel : Nat) (s : List Char) : PRes PNode :=
  match fuel with
  | 0 => .fail
  | fuel + 1 =>
    match parseMul clock fuel s with
    | .done b r =>
      match sumLoop clock fuel [] r with
      | .done items r2 =>
        match items with
        | [] => .done b r
        | _ => .done (.grp (b :: items)) r2
      | .abort => .abort
      | .fail => .done b r
    | .abort => .abort
    | .fail => .fail

def sumLoop (clock : Rat) (fuel : Nat) (acc : List PNode) (s : List Char) :
    PRes (List PNode) :=
  match fuel with
  | 0 => .fail
  | fuel + 1 =>
    match matchOpTok ["+", "-"] (skipWs s) with
    | some (o, r) =>
      match parseMul clock fuel r with
      | .done t r2 => sumLoop clock fuel (acc ++ [.opTok o, t]) r2
      | .abort => .abort
      | .fail => .done acc s
    | none => .done acc s

end

/-- `parse_expression`: run the grammar with `parseAll=True` (trailing
whitespace allowed, anything else is a parse error).  The `clock`
parameter is the wall clock the `now`/`today` parse actions read. -/
def parse_expression (clock : Rat) (s : List Char) : Except Err PNode :=
  match parseSum clock (4 * s.length + 16) s with
  | .done t r => if (skipWs r).isEmpty then .ok t else .error .parseErr
  | _ => .error .parseErr

/-- Operator string of a parse node (`expr[1]` in the evaluator; a
non-operator in that position would fail every comparison and raise). -/
def opName : PNode → String
  | .opTok o => o
  | _ => ""

/-!
`Expression._evaluate_expression`, fueled for termination (the fuel
used below always suffices): an `ExpressionElement` yields its `obj`; a
3-element list is a binary node (left evaluated, then right, then the
operator dispatch); a longer odd list — pyparsing's flat left-
associative chain — is folded strictly left-to-right; a 2-element list
(unreachable) would rebuild a quantity; anything else raises.
-/
mutual

def evalFuel : Nat → PNode → Except Err V
  | 0, _ => .error .valueError
  | _ + 1, .elem v => .ok v
  | _ + 1, .opTok _ => .error .valueError
  | fuel + 1, .grp xs => evalListFuel fuel xs

def evalListFuel : Nat → List PNode → Except Err V
  | 0, _ => .error .valueError
  | fuel + 1, xs =>
    if xs.length = 3 then
      match xs with
      | [a, o, b] => do
        let lv ← evalFuel fuel a
        let rv ← evalFuel fuel b
        evalBinOp lv (opName o) rv
      | _ => .error .valueError
    else if xs.length % 2 = 1 then
      match xs with
      | x0 :: x1 :: x2 :: rest => do
        let t0 ← evalListFuel fuel [x0, x1, x2]
        evalChainFuel fuel t0 rest
      | _ => .error .valueError
    else if xs.length = 2 then .error .typeError
    else .error .valueError

def evalChainFuel : Nat → V → List PNode → Except Err V
  | 0, _, _ => .error .valueError
  | _ + 1, v, [] => .ok v
  | fuel + 1, v, o :: rhs :: rest => do
    let rv ← evalFuel fuel rhs
    let v' ← evalBinOp v (opName o) rv
    evalChainFuel fuel v' rest
  | _ + 1, _, _ => .error .valueError

end

/-- The registry's preferred units per dimension
(`default_preferred_units = [s, m, kg, W, Wh]`), for the dimensions the
program's results exercise; other dimensions are outside the modelled
table and left unchanged. -/
def preferredFor (d : Dim) : Option Units :=
  if d = Dim.zero then some []
  else if d = timeDim then some [(.s, 1)]
  else if d = BaseUnit.m.dim then some [(.m, 1)]
  else if d = BaseUnit.kg.dim then some [(.kg, 1)]
  else if d = BaseUnit.W.dim then some [(.W, 1)]
  else if d = BaseUnit.Wh.dim then some [(.Wh, 1)]
  else if d = Dim.add BaseUnit.m.dim (Dim.smul (-1) timeDim) then some [(.m, 1), (.s, -1)]
  else if d = Dim.add BaseUnit.m.dim (Dim.smul (-2) timeDim) then some [(.m, 1), (.s, -2)]
  else none

/-- pint conversion of a quantity to given (dimensionally equal) units:
with syntactically equal units the quantity is returned unchanged,
otherwise the magnitude is scaled in float arithmetic. -/
def convertTo (q : Quantity) (us : Units) : Quantity :=
  if q.units = us then q
  else ⟨magScaleF (ufactor q.units / ufactor us) q.mag, us⟩

/-- `to_preferred`: re-express a quantity in the registry's preferred
units for its dimension. -/
def to_preferred (q : Quantity) : Quantity :=
  match preferredFor q.dim with
  | some us => convertTo q us
  | none => q

/-- The tail of `Expression.evaluate`: a datetime result is returned
as-is, a quantity result is normalized with `to_preferred`. -/
def finishValue (v : V) : V :=
  match v with
  | .inst i => .inst i
  | .qty q => .qty (to_preferred q)

/-- `Expression.evaluate` on an already parsed tree. -/
def evaluateParsed (t : PNode) : Except Err V := do
  let v ← evalFuel 64 t
  pure (finishValue v)

/-- The `" in "` conversion step of `auto_calculate`:
`ureg.Quantity(result.m_as(dest_unit), dest_unit)`.  A datetime result
has no `m_as` (AttributeError); an unknown target raises
`UndefinedUnitError`; a dimensionally different target raises
(`IncompatibleConversionUnit` in the spec's taxonomy). -/
def applyDest (v : V) (dest : Option String) : Except Err V :=
  match dest with
  | none => .ok v
  | some dstr =>
    match v with
    | .inst _ => .error .typeError
    | .qty q =>
      match lookupUnit dstr with
      | none => .error .unknownUnit
      | some b =>
        if q.dim = b.dim then .ok (.qty ⟨(convertTo q [(b, 1)]).mag, [(b, 1)]⟩)
        else .error .incompatibleConversionUnit

/-- The displayed result: a datetime renders as a date-time string, a
quantity renders magnitude and unit separately — except that formatting
a timedelta magnitude with a float format spec raises `TypeError`. -/
inductive CalcOut
  | instOut (i : Instant)
  | qtyOut (mag : Mag) (us : Units)
deriving DecidableEq

/-- `display_result`, up to the typed value shown (numeric text
rendering with precision/notation is presentation only). -/
def display_result (v : V) : Except Err CalcOut :=
  match v with
  | .inst i => .ok (.instOut i)
  | .qty q =>
    match q.mag with
    | .td _ => .error .typeError
    | mg => .ok (.qtyOut mg q.units)

/-- Python's `split(' in ')` on a character list. -/
def splitInAux : List Char → List Char → List (List Char)
  | ' ' :: 'i' :: 'n' :: ' ' :: rest, acc => acc.reverse :: splitInAux rest []
  | ch :: rest, acc => splitInAux rest (ch :: acc)
  | [], acc => [acc.reverse]

/-- The `µ` → `u` preprocessing of `auto_calculate`. -/
def microToU (s : List Char) : List Char :=
  s.map (fun ch => if ch = 'µ' then 'u' else ch)

/-- The core of `auto_calculate` after splitting: parse, evaluate,
convert to the target unit if any, display. -/
def runCalc (clock : Rat) (e : List Char) (dest : Option String) : Except Err CalcOut := do
  let t ← parse_expression clock e
  let v ← evaluateParsed t
  let v2 ← applyDest v dest
  display_result v2

/-- `Unacalc.auto_calculate`: replace `µ`, split once on `" in "`
(an empty target behaves like no target; more than one `" in "` raises
on unpacking), then parse/evaluate/convert/display.  `clock` is the
wall clock during the call (parse actions read it). -/
def auto_calculate (clock : Rat) (input : String) : Except Err CalcOut :=
  let cs := microToU input.data
  match splitInAux cs [] with
  | [e] => runCalc clock e none
  | [e, d] => runCalc clock e (if d.isEmpty then none else some (String.mk d))
  | _ => .error .valueError

/-- The parse-then-evaluate pipeline with the two moments separated:
`tparse` is the wall clock while `parse_expression` runs (the moment
the `constant` parse action resolves `now`/`today`), `teval` the wall
clock while `Expression.evaluate` runs.  The definition does not use
`teval`: the evaluator performs no clock read. -/
def parseThenEval (tparse teval : Rat) (input : String) : Except Err CalcOut :=
  let _ := teval
  (parse_expression tparse (microToU input.data)).bind fun t =>
    (evaluateParsed t).bind display_result

/-! Helper lemmas. -/

/-- On two quantity operands the temporal branch is skipped and the
operator dispatches to pint arithmetic. -/
theorem evalBinOp_qty (x y : Quantity) (op : String) :
    evalBinOp (.qty x) op (.qty y) =
      (if op = "*" then (qmul x y).map .qty
       else if op = "+" then (qadd x y).map .qty
       else if op = "/" then (qdiv x y).map .qty
       else if op = "-" then (qsub x y).map .qty
       else if op = "^" ∨ op = "**" then (qpow x y).map .qty
       else .error .valueError) := by
  simp [evalBinOp, V.isInst]

/-- Equal units force equal dimensions. -/
theorem dim_eq_of_units_eq (x y : Quantity) (h : x.units = y.units) : x.dim = y.dim := by
  simp [Quantity.dim, h]

/-- Scaling keeps a magnitude numeric. -/
theorem magScaleF_isNum (c : Rat) (a : Mag) (h : a.isNum = true) :
    (magScaleF c a).isNum = true := by
  cases a <;> simp_all [magScaleF, Mag.isNum]

/-- Adding two numeric magnitudes never raises. -/
theorem mAdd_isNum_ok (a b : Mag) (ha : a.isNum = true) (hb : b.isNum = true) :
    ∃ m, mAdd a b = .ok m := by
  cases a <;> cases b <;> simp_all [mAdd, Mag.isNum]

/-- Subtracting two numeric magnitudes never raises. -/
theorem mSub_isNum_ok (a b : Mag) (ha : a.isNum = true) (hb : b.isNum = true) :
    ∃ m, mSub a b = .ok m := by
  cases a <;> cases b <;> simp_all [mSub, Mag.isNum]

/-- `qadd` with mismatched dimensions raises `DimensionalityError`. -/
theorem qadd_dim_ne (x y : Quantity) (h : x.dim ≠ y.dim) :
    qadd x y = .error .dimensionMismatch := by
  have hu : x.units ≠ y.units := fun hu => h (dim_eq_of_units_eq x y hu)
  simp only [qadd, if_neg hu, if_neg h]

/-- `qsub` with mismatched dimensions raises `DimensionalityError`. -/
theorem qsub_dim_ne (x y : Quantity) (h : x.dim ≠ y.dim) :
    qsub x y = .error .dimensionMismatch := by
  have hu : x.units ≠ y.units := fun hu => h (dim_eq_of_units_eq x y hu)
  simp only [qsub, if_neg hu, if_neg h]

/-- `qadd` on numeric magnitudes of equal dimension succeeds and keeps
the left operand's unit. -/
theorem qadd_dim_eq (x y : Quantity) (h : x.dim = y.dim)
    (hx : x.mag.isNum = true) (hy : y.mag.isNum = true) :
    ∃ m, qadd x y = .ok ⟨m, x.units⟩ := by
  by_cases hu : x.units = y.units
  · obtain ⟨m, hm⟩ := mAdd_isNum_ok x.mag y.mag hx hy
    exact ⟨m, by simp [qadd, hu, hm]⟩
  · obtain ⟨m, hm⟩ := mAdd_isNum_ok x.mag
      (magScaleF (ufactor y.units / ufactor x.units) y.mag) hx
      (magScaleF_isNum _ _ hy)
    exact ⟨m, by simp [qadd, hu, h, hm]⟩

/-- `qsub` on numeric magnitudes of equal dimension succeeds and keeps
the left operand's unit. -/
theorem qsub_dim_eq (x y : Quantity) (h : x.dim = y.dim)
    (hx : x.mag.isNum = true) (hy : y.mag.isNum = true) :
    ∃ m, qsub x y = .ok ⟨m, x.units⟩ := by
  by_cases hu : x.units = y.units
  · obtain ⟨m, hm⟩ := mSub_isNum_ok x.mag y.mag hx hy
    exact ⟨m, by simp [qsub, hu, hm]⟩
  · obtain ⟨m, hm⟩ := mSub_isNum_ok x.mag
      (magScaleF (ufactor y.units / ufactor x.units) y.mag) hx
      (magScaleF_isNum _ _ hy)
    exact ⟨m, by simp [qsub, hu, h, hm]⟩

/-! Claim theorems. -/

/-- C1: the grammar's precedence table makes `^`/`**` bind tighter than
`*`/`/`, which bind tighter than `+`/`-`, with `^` right-associative
and the rest left-associative: `2 + 3 * 4` parses with the product
grouped and evaluates to `14`; `2 ^ 3 ^ 2` parses nested to the right
and evaluates to `512` (not `64`), identically with the `**` spelling;
left-associative chains parse flat and fold left-to-right, so
`2 - 3 - 4` is `-5` and `100 / 10 / 5` is `2.0`. -/
theorem C1_precedence_associativity :
    parse_expression 0 ("2 + 3 * 4".data)
      = .ok (.grp [.elem (.qty ⟨.int 2, []⟩), .opTok "+",
          .grp [.elem (.qty ⟨.int 3, []⟩), .opTok "*", .elem (.qty ⟨.int 4, []⟩)]])
  ∧ auto_calculate 0 "2 + 3 * 4" = .ok (.qtyOut (.int 14) [])
  ∧ parse_expression 0 ("2 ^ 3 ^ 2".data)
      = .ok (.grp [.elem (.qty ⟨.int 2, []⟩), .opTok "^",
          .grp [.elem (.qty ⟨.int 3, []⟩), .opTok "^", .elem (.qty ⟨.int 2, []⟩)]])
  ∧ auto_calculate 0 "2 ^ 3 ^ 2" = .ok (.qtyOut (.int 512) [])
  ∧ auto_calculate 0 "2 ** 3 ** 2" = .ok (.qtyOut (.int 512) [])
  ∧ parse_expression 0 ("2 - 3 - 4".data)
      = .ok (.grp [.elem (.qty ⟨.int 2, []⟩), .opTok "-", .elem (.qty ⟨.int 3, []⟩),
          .opTok "-", .elem (.qty ⟨.int 4, []⟩)])
  ∧ auto_calculate 0 "2 - 3 - 4" = .ok (.qtyOut (.int (-5)) [])
  ∧ auto_calculate 0 "100 / 10 / 5" = .ok (.qtyOut (.flt 2) []) := by
  refine ⟨?_, ?_, ?_, ?_, ?_, ?_, ?_, ?_⟩ <;> with_unfolding_all rfl

/-- C3: `+`/`-` on two quantities raise `DimensionalityError`
(`DimensionMismatch`) exactly when the dimension vectors differ, and on
equal dimensions succeed with the left operand's unit on the result;
`1 m + 1 s` fails through the whole pipeline. -/
theorem C3_add_sub_dimension_rules :
    (∀ (x y : Quantity) (op : String), op = "+" ∨ op = "-" →
      (x.dim ≠ y.dim → evalBinOp (.qty x) op (.qty y) = .error .dimensionMismatch)
      ∧ (x.dim = y.dim → x.mag.isNum = true → y.mag.isNum = true →
          ∃ m, evalBinOp (.qty x) op (.qty y) = .ok (.qty ⟨m, x.units⟩)))
  ∧ auto_calculate 0 "1 m + 1 s" = .error .dimensionMismatch := by
  constructor
  · intro x y op hop
    rcases hop with h | h <;> subst h <;> constructor
    · intro hne
      simp [evalBinOp_qty, qadd_dim_ne x y hne, Except.map]
    · intro hd hx hy
      obtain ⟨m, hm⟩ := qadd_dim_eq x y hd hx hy
      exact ⟨m, by simp [evalBinOp_qty, hm, Except.map]⟩
    · intro hne
      simp [evalBinOp_qty, qsub_dim_ne x y hne, Except.map]
    · intro hd hx hy
      obtain ⟨m, hm⟩ := qsub_dim_eq x y hd hx hy
      exact ⟨m, by simp [evalBinOp_qty, hm, Except.map]⟩
  · with_unfolding_all rfl

/-- C3 witness: instantiating the dimension rules at `2 m + 3 m` (same
dimension: succeeds keeping `m`) and at `1 m + 1 s` (different
dimensions: `DimensionMismatch`). -/
theorem C3_add_sub_dimension_rules_witness :
    (∃ m, evalBinOp (.qty ⟨.int 2, [(.m, 1)]⟩) "+" (.qty ⟨.int 3, [(.m, 1)]⟩)
        = .ok (.qty ⟨m, [(.m, 1)]⟩))
  ∧ evalBinOp (.qty ⟨.int 1, [(.m, 1)]⟩) "+" (.qty ⟨.int 1, [(.s, 1)]⟩)
      = .error .dimensionMismatch := by
  constructor
  · exact (C3_add_sub_dimension_rules.1 ⟨.int 2, [(.m, 1)]⟩ ⟨.int 3, [(.m, 1)]⟩ "+"
      (Or.inl rfl)).2 (by decide) (by decide) (by decide)
  · exact (C3_add_sub_dimension_rules.1 ⟨.int 1, [(.m, 1)]⟩ ⟨.int 1, [(.s, 1)]⟩ "+"
      (Or.inl rfl)).1 (by decide)

/-- C4 counterexample: the claim predicts that `a ^ b` with
dimensionless `b` always yields magnitude `a ^ b`, so `2 ^ -1` should
yield `0.5`; the code instead raises, because both literals are Python
ints and `np.power` refuses integer bases with negative integer
exponents. -/
theorem C4_power_magnitude_counterexample :
    auto_calculate 0 "2 ^ -1" = .error .intNegPower := by
  with_unfolding_all rfl

/-- C4 as amended: `^`/`**` raises `NonDimensionlessExponent` whenever
the exponent's dimension is non-empty; with a dimensionless exponent
the result magnitude is the base magnitude raised to the exponent
magnitude, except that an integer base with a negative integer exponent
raises (numpy restriction).  Exponents are stated at integer values,
the fragment the exact rational embedding covers. -/
theorem C4_power_rules_amended :
    (∀ (x y : Quantity) (op : String), op = "^" ∨ op = "**" → y.dim ≠ Dim.zero →
        evalBinOp (.qty x) op (.qty y) = .error .nonDimensionlessExponent)
  ∧ (∀ (a n : Int) (us : Units), 0 ≤ n →
        evalBinOp (.qty ⟨.int a, us⟩) "^" (.qty ⟨.int n, []⟩)
          = .ok (.qty ⟨.int (intIPow a n.toNat), upow us n⟩))
  ∧ (∀ (a n : Int) (us : Units), n < 0 →
        evalBinOp (.qty ⟨.int a, us⟩) "^" (.qty ⟨.int n, []⟩) = .error .intNegPower)
  ∧ (∀ (b : Rat) (n : Int) (us : Units), ¬(b = 0 ∧ n < 0) →
        evalBinOp (.qty ⟨.flt b, us⟩) "^" (.qty ⟨.int n, []⟩)
          = .ok (.qty ⟨.flt (intPow b n), upow us n⟩)) := by
  refine ⟨?_, ?_, ?_, ?_⟩
  · intro x y op hop hdim
    rcases hop with h | h <;> subst h <;>
      simp [evalBinOp_qty, qpow, if_pos hdim, Except.map]
  · intro a n us h
    have hn : ¬ n < 0 := not_lt.mpr h
    simp [evalBinOp_qty, qpow, Quantity.dim, udim, hn, Except.map]
  · intro a n us h
    simp [evalBinOp_qty, qpow, Quantity.dim, udim, h, Except.map]
  · intro b n us h
    simp [evalBinOp_qty, qpow, Quantity.dim, udim, h, Except.map]

/-- C4 witness: the amended power rules at concrete inputs —
a dimensioned exponent raises, `2 ^ 9 = 512` on ints, `2 ^ -1` raises
on ints, `2.0 ^ -1 = 0.5` on floats. -/
theorem C4_power_rules_amended_witness :
    evalBinOp (.qty ⟨.int 2, []⟩) "^" (.qty ⟨.int 3, [(.s, 1)]⟩)
      = .error .nonDimensionlessExponent
  ∧ evalBinOp (.qty ⟨.int 2, []⟩) "^" (.qty ⟨.int 9, []⟩) = .ok (.qty ⟨.int 512, []⟩)
  ∧ evalBinOp (.qty ⟨.int 2, []⟩) "^" (.qty ⟨.int (-1), []⟩) = .error .intNegPower
  ∧ evalBinOp (.qty ⟨.flt 2, []⟩) "^" (.qty ⟨.int (-1), []⟩)
      = .ok (.qty ⟨.flt (1 / 2), []⟩) := by
  refine ⟨?_, ?_, ?_, ?_⟩
  · exact C4_power_rules_amended.1 ⟨.int 2, []⟩ ⟨.int 3, [(.s, 1)]⟩ "^"
      (Or.inl rfl) (by decide)
  · rw [C4_power_rules_amended.2.1 2 9 [] (by decide)]
    rfl
  · exact C4_power_rules_amended.2.2.1 2 (-1) [] (by decide)
  · rw [C4_power_rules_amended.2.2.2 2 (-1) [] (by simp)]
    with_unfolding_all rfl

/-- C5: in a `+`/`-` node with exactly one `datetime` operand the
quantity side is first converted to a timedelta of its value in seconds
— raising `DimensionMismatch` when its dimension is not pure time, on
whichever side it stands — and `Instant + Duration` and
`Instant - Duration` yield an `Instant`; concretely,
`2024-06-08T19:45:10 + 5 days` is the instant 2024-06-13 19:45:10. -/
theorem C5_instant_duration_arithmetic :
    (∀ (i : Instant) (q : Quantity), q.dim = timeDim → q.mag.isNum = true →
        evalBinOp (.inst i) "+" (.qty q)
            = .ok (.inst ⟨i.utc + q.mag.val * ufactor q.units, i.aware⟩)
        ∧ evalBinOp (.inst i) "-" (.qty q)
            = .ok (.inst ⟨i.utc - q.mag.val * ufactor q.units, i.aware⟩))
  ∧ (∀ (i : Instant) (q : Quantity) (op : String), op = "+" ∨ op = "-" →
        q.dim ≠ timeDim →
        evalBinOp (.inst i) op (.qty q) = .error .dimensionMismatch
        ∧ evalBinOp (.qty q) op (.inst i) = .error .dimensionMismatch)
  ∧ auto_calculate 0 "2024-06-08T19:45:10 + 5 days"
      = .ok (.instOut ⟨civilSecs 2024 6 13 19 45 10 0, false⟩) := by
  refine ⟨?_, ?_, ?_⟩
  · intro i q hdim hnum
    constructor <;>
    · cases hq : q.mag with
      | int n =>
        simp [evalBinOp, V.isInst, toTemporal, hdim, hq, tcombine, Mag.val, Bind.bind, Except.bind]
      | flt x =>
        simp [evalBinOp, V.isInst, toTemporal, hdim, hq, tcombine, Mag.val, Bind.bind, Except.bind]
      | td a => simp [Mag.isNum, hq] at hnum
  · intro i q op hop hdim
    constructor <;>
      simp [evalBinOp, V.isInst, toTemporal, hdim, Bind.bind, Except.bind]
  · with_unfolding_all rfl

/-- C5 witness: the instant-duration rules at `2024-06-08T19:45:10`
with `5 days` (a time quantity: both directions succeed) and with
`5 kg` (not a time quantity: `DimensionMismatch` on either side). -/
theorem C5_instant_duration_arithmetic_witness :
    evalBinOp (.inst ⟨civilSecs 2024 6 8 19 45 10 0, false⟩) "+" (.qty ⟨.int 5, [(.day, 1)]⟩)
      = .ok (.inst ⟨civilSecs 2024 6 13 19 45 10 0, false⟩)
  ∧ evalBinOp (.inst ⟨civilSecs 2024 6 8 19 45 10 0, false⟩) "-" (.qty ⟨.int 5, [(.day, 1)]⟩)
      = .ok (.inst ⟨civilSecs 2024 6 3 19 45 10 0, false⟩)
  ∧ evalBinOp (.inst ⟨0, false⟩) "+" (.qty ⟨.int 5, [(.kg, 1)]⟩) = .error .dimensionMismatch
  ∧ evalBinOp (.qty ⟨.int 5, [(.kg, 1)]⟩) "-" (.inst ⟨0, false⟩) = .error .dimensionMismatch := by
  have h := C5_instant_duration_arithmetic.1 ⟨civilSecs 2024 6 8 19 45 10 0, false⟩
    ⟨.int 5, [(.day, 1)]⟩ (by decide) (by decide)
  have h2 := C5_instant_duration_arithmetic.2.1 ⟨0, false⟩ ⟨.int 5, [(.kg, 1)]⟩
  refine ⟨?_, ?_, ?_, ?_⟩
  · rw [h.1]; with_unfolding_all rfl
  · rw [h.2]; with_unfolding_all rfl
  · exact (h2 "+" (Or.inl rfl) (by decide)).1
  · exact (h2 "-" (Or.inr rfl) (by decide)).2

/-- C2: with no target unit the final quantity is re-expressed in the
registry's preferred units for its dimension; with an `" in "` target
the result is converted to that unit instead, raising
`IncompatibleConversionUnit` when the target's dimension differs; and
`1000 g in kg` yields magnitude `1.0` with unit `kg` (as does plain
`1000 g` through preferred-unit normalization to `kg`). -/
theorem C2_final_normalization_and_conversion :
    (∀ (q : Quantity) (us : Units), preferredFor q.dim = some us →
        ∃ m, finishValue (.qty q) = .qty ⟨m, us⟩)
  ∧ (∀ (q : Quantity) (u : String) (b : BaseUnit), lookupUnit u = some b →
        q.dim = b.dim → ∃ m, applyDest (.qty q) (some u) = .ok (.qty ⟨m, [(b, 1)]⟩))
  ∧ (∀ (q : Quantity) (u : String) (b : BaseUnit), lookupUnit u = some b →
        q.dim ≠ b.dim →
        applyDest (.qty q) (some u) = .error .incompatibleConversionUnit)
  ∧ auto_calculate 0 "1000 g in kg" = .ok (.qtyOut (.flt 1) [(.kg, 1)])
  ∧ auto_calculate 0 "1000 g" = .ok (.qtyOut (.flt 1) [(.kg, 1)]) := by
  refine ⟨?_, ?_, ?_, ?_, ?_⟩
  · intro q us h
    obtain ⟨mg, un⟩ := q
    by_cases hu : un = us
    · subst hu
      exact ⟨mg, by simp [finishValue, to_preferred, h, convertTo]⟩
    · exact ⟨magScaleF (ufactor un / ufactor us) mg, by
        simp [finishValue, to_preferred, h, convertTo, hu]⟩
  · intro q u b hb hdim
    exact ⟨(convertTo q [(b, 1)]).mag, by simp [applyDest, hb, hdim]⟩
  · intro q u b hb hdim
    simp [applyDest, hb, hdim]
  · with_unfolding_all rfl
  · with_unfolding_all rfl

/-- C2 witness: the normalization and conversion rules at concrete
inputs — `5 hour` normalizes to seconds, `1000 g` converts to `kg`,
converting `1 m` to `s` raises `IncompatibleConversionUnit`. -/
theorem C2_final_normalization_and_conversion_witness :
    (∃ m, finishValue (.qty ⟨.int 5, [(.hourU, 1)]⟩) = .qty ⟨m, [(.s, 1)]⟩)
  ∧ (∃ m, applyDest (.qty ⟨.int 1000, [(.g, 1)]⟩) (some "kg") = .ok (.qty ⟨m, [(.kg, 1)]⟩))
  ∧ applyDest (.qty ⟨.int 1, [(.m, 1)]⟩) (some "s") = .error .incompatibleConversionUnit := by
  refine ⟨?_, ?_, ?_⟩
  · exact C2_final_normalization_and_conversion.1 ⟨.int 5, [(.hourU, 1)]⟩ [(.s, 1)] (by decide)
  · exact C2_final_normalization_and_conversion.2.1 ⟨.int 1000, [(.g, 1)]⟩ "kg" .kg
      (by decide) (by decide)
  · exact C2_final_normalization_and_conversion.2.2.1 ⟨.int 1, [(.m, 1)]⟩ "s" .s
      (by decide) (by decide)

/-- C6: evaluating the difference of the date literals `2024-06-08` and
`2024-06-01` produces `ureg.Quantity(timedelta(days=7), None)` — a
quantity whose magnitude is a Python timedelta of 604800 seconds but
whose unit (and hence dimension vector) is empty, not the pure time
dimension the spec requires; `auto_calculate` then fails with a
`TypeError` when the float format spec is applied to the timedelta, so
the displayed result is the error indicator. -/
theorem C6_instant_difference_code_result :
    (parse_expression 0 ("2024-06-08 - 2024-06-01".data)).bind evaluateParsed
      = .ok (.qty ⟨.td 604800, []⟩)
  ∧ Quantity.dim ⟨.td 604800, []⟩ = Dim.zero
  ∧ Dim.zero ≠ timeDim
  ∧ auto_calculate 0 "2024-06-08 - 2024-06-01" = .error .typeError := by
  refine ⟨?_, ?_, ?_, ?_⟩
  · with_unfolding_all rfl
  · rfl
  · decide
  · with_unfolding_all rfl

/-- C7 counterexample: parsing `now` at wall-clock 0 and evaluating the
parsed expression at wall-clock 86400 yields the instant 0, not 86400 —
the constant was resolved by the parse action at parse time, so the
claim that `now` is read from the wall clock at evaluation time fails. -/
theorem C7_now_resolution_counterexample :
    parseThenEval 0 86400 "now" = .ok (.instOut ⟨0, false⟩)
  ∧ parseThenEval 0 86400 "now" ≠ .ok (.instOut ⟨86400, false⟩) := by
  have h0 : parseThenEval 0 86400 "now" = .ok (.instOut ⟨0, false⟩) := by
    with_unfolding_all rfl
  refine ⟨h0, ?_⟩
  rw [h0]
  intro h
  have h1 := Except.ok.inj h
  simp only [CalcOut.instOut.injEq, Instant.mk.injEq] at h1
  exact absurd h1.1 (by norm_num)

/-- C7 as amended: `now` resolves to the wall clock read at parse time
(in the `constant` parse action), and `today` to midnight of that same
parse-time clock; the evaluation-time clock never influences the
result. -/
theorem C7_now_today_parse_time_resolution :
    ∀ tparse teval : Rat,
      parseThenEval tparse teval "now" = .ok (.instOut ⟨tparse, false⟩)
      ∧ parseThenEval tparse teval "today" = .ok (.instOut ⟨floorDay tparse, false⟩) :=
  fun _ _ => ⟨rfl, rfl⟩

/-- A maximal run taken by a predicate satisfies the predicate
throughout. -/
theorem takeWhile_all (p : Char → Bool) (l : List Char) :
    (l.takeWhile p).all p = true := by
  induction l with
  | nil => rfl
  | cons c rest ih =>
    by_cases h : p c <;> simp [List.takeWhile_cons, h, ih]

/-- C8 counterexample: the operand grammar tokenizes only a single
alphabetic word as the unit of `5 m/s^2` — the parse tree attaches unit
`m` to the literal and turns `/s^2` into arithmetic nodes (division by
the constant `s` raised to `2`), so the compound symbol is decomposed
by the arithmetic expression grammar, contradicting the claim that it
is tokenized as part of the unit symbol. -/
theorem C8_compound_unit_counterexample :
    parse_expression 0 ("5 m/s^2".data)
      = .ok (.grp [.elem (.qty ⟨.int 5, [(.m, 1)]⟩), .opTok "/",
          .grp [.elem (.qty ⟨.int 1, [(.s, 1)]⟩), .opTok "^", .elem (.qty ⟨.int 2, []⟩)]]) := by
  with_unfolding_all rfl

/-- C8 as amended: the unit attached to a numeric literal is a single
alphabetic word (the unit token accepts letters only); a compound
spelling such as `5 m/s^2` is decomposed by the arithmetic grammar —
bare unit names parse as named constants equal to 1 of the unit — and
evaluation still produces the compound-unit quantity, identically under
surrounding arithmetic. -/
theorem C8_unit_token_single_word_amended :
    (∀ (s : List Char) (u : String) (rest : List Char),
        parseUnitTok s = some (u, rest) → u.data.all Char.isAlpha = true)
  ∧ auto_calculate 0 "5 m/s^2" = .ok (.qtyOut (.flt 5) [(.m, 1), (.s, -2)])
  ∧ auto_calculate 0 "3 * 5 m/s^2" = .ok (.qtyOut (.flt 15) [(.m, 1), (.s, -2)]) := by
  refine ⟨?_, ?_, ?_⟩
  · intro s u rest h
    unfold parseUnitTok at h
    rcases hs : s.span Char.isAlpha with ⟨us, r⟩
    rw [hs] at h
    have hus : us = s.takeWhile Char.isAlpha := by
      have := congrArg Prod.fst hs
      simpa [List.span_eq_take_drop] using this.symm
    cases us with
    | nil => simp at h
    | cons c cs =>
      simp only [Option.some.injEq, Prod.mk.injEq] at h
      rw [← h.1]
      show (c :: cs).all Char.isAlpha = true
      rw [hus]
      exact takeWhile_all Char.isAlpha s
  · with_unfolding_all rfl
  · with_unfolding_all rfl

/-- C8 witness: the unit token of `m/s^2` is the single alphabetic word
`m`. -/
theorem C8_unit_token_single_word_amended_witness :
    ("m".data).all Char.isAlpha = true :=
  C8_unit_token_single_word_amended.1 ("m/s^2".data) "m" ("/s^2".data) (by decide)

/-- C10: the identifier `c` is special-cased to the registry's
`speed_of_light` (1 speed-of-light, a length/time unit of factor
299792458 relative to metres per second), while every identifier other
than `now`, `today` and `c` resolves through a registry lookup under
its own name. -/
theorem C10_constant_c_is_speed_of_light :
    (∀ t : Rat, from_constant t "c" = some (.qty ⟨.int 1, [(.speedOfLight, 1)]⟩))
  ∧ BaseUnit.speedOfLight.factor = 299792458
  ∧ BaseUnit.speedOfLight.dim = Dim.add BaseUnit.m.dim (Dim.smul (-1) BaseUnit.s.dim)
  ∧ (∀ (t : Rat) (name : String), name ≠ "now" → name ≠ "today" → name ≠ "c" →
      from_constant t name = constantLookup name) := by
  refine ⟨fun t => rfl, rfl, by decide, ?_⟩
  intro t name h1 h2 h3
  simp [from_constant, h1, h2, h3]

/-- C10 witness: resolving a generic identifier (`kg`) goes through the
plain registry lookup. -/
theorem C10_constant_c_is_speed_of_light_witness :
    from_constant 0 "kg" = constantLookup "kg" :=
  C10_constant_c_is_speed_of_light.2.2.2 0 "kg" (by decide) (by decide) (by decide)

/-- C9: a leading sign is consumed inside the number token, so
`-1 + 2` parses as the literal `-1` plus the literal `2` (not as a
negation of the sum) and evaluates to `1`; a leading `+` behaves the
same way (`+3 - 1` is `2`). -/
theorem C9_leading_sign_in_literal :
    parse_expression 0 ("-1 + 2".data)
      = .ok (.grp [.elem (.qty ⟨.int (-1), []⟩), .opTok "+", .elem (.qty ⟨.int 2, []⟩)])
  ∧ auto_calculate 0 "-1 + 2" = .ok (.qtyOut (.int 1) [])
  ∧ parse_expression 0 ("+3 - 1".data)
      = .ok (.grp [.elem (.qty ⟨.int 3, []⟩), .opTok "-", .elem (.qty ⟨.int 1, []⟩)])
  ∧ auto_calculate 0 "+3 - 1" = .ok (.qtyOut (.int 2) []) := by
  refine ⟨?_, ?_, ?_, ?_⟩ <;> with_unfolding_all rfl

end Unacalc
